import Mathlib

/-!
Verification of the redcap-data-transfer repository against its
natural-language specification.

The definitions below are a shallow embedding of the Python sources:

* `src/validator/rule_validator.py` — `RuleValidator.cast_record`,
  `RuleValidator._validate_filled`, `RuleValidator._validate_constraints`,
  `RuleValidator.__populate_data_types`;
* `src/validator/quality_check.py` — `QualityCheck.__load_rules`,
  `QualityCheck.check_record_cerberus`;
* `src/validator/rule.py` — `NumericRangeRule.apply`;
* `src/validator/parser.py` — `Parser.get_rule_object`;
* `src/data_handler.py` — `DataHandler.compare_project_settings`,
  `DataHandler.transfer_data`, `DataHandler.validate_data`,
  `DataHandler.move_records`, `DataHandler.compose_error_report_for_record`.

Remote REDCap calls (`export_records`, `import_records`, `delete_records`,
`import` of the failed records, …) are thin HTTP wrappers in
`redcap_connection.py`; they are modelled as function-valued environment
fields returning `Option` results, where `none` stands for the falsy
`False` returned by the wrapper on any non-OK response.
-/

namespace RedcapTransfer

/-- Cerberus schema data types recognised by
`RuleValidator.__populate_data_types` (rule_validator.py, lines 49-73):
integer, string, float, boolean, date, datetime. -/
inductive DType where
  | int
  | float
  | bool
  | str
  | date
  | datetime
deriving DecidableEq, Repr

/-- Runtime value of a record field after `cast_record`.  Python is
dynamically typed; a field value is either `None` (the absent marker), the
original raw string, or a parsed int / float / bool. -/
inductive Value where
  | none
  | vstr (s : String)
  | vint (n : Int)
  | vfloat (q : ℚ)
  | vbool (b : Bool)
deriving DecidableEq, Repr

/-- Raw record as exported from REDCap: an association list from field
name to raw string value (JSON object of strings). -/
abbrev RawRecord := List (String × String)

/-- Record after type casting: field name to runtime value. -/
abbrev CastRecord := List (String × Value)

/-- First-match association-list lookup, the counterpart of a Python
`dict` access on the models below (models keep the first binding). -/
def lookupKey {α : Type} (l : List (String × α)) (k : String) : Option α :=
  match l.find? (fun p => p.1 = k) with
  | Option.none => Option.none
  | Option.some p => Option.some p.2

/-- Numeric value of a digit-character list. -/
def digitsVal (cs : List Char) : Nat :=
  cs.foldl (fun a c => a * 10 + (c.toNat - 48)) 0

/-- Parse a non-empty all-digit character list, else fail. -/
def digitsToNat (cs : List Char) : Option Nat :=
  if cs ≠ [] ∧ cs.all Char.isDigit then Option.some (digitsVal cs)
  else Option.none

/-- Model of the Python builtin `int(str)` used by `cast_record`: an
optional sign followed by decimal digits parses, anything else raises
`ValueError` (modelled as `none`).  Surrounding whitespace and underscore
digit separators, which CPython also accepts, are not modelled. -/
def pyInt (s : String) : Option Int :=
  match s.data with
  | '-' :: rest => (digitsToNat rest).map (fun n => -(n : Int))
  | '+' :: rest => (digitsToNat rest).map Int.ofNat
  | cs => (digitsToNat cs).map Int.ofNat

/-- Split a character list on the decimal-point character. -/
def splitDot : List Char → List (List Char)
  | [] => [[]]
  | c :: rest =>
    if c = '.' then [] :: splitDot rest
    else
      match splitDot rest with
      | [] => [[c]]
      | h :: t => (c :: h) :: t

/-- Magnitude part of the Python builtin `float(str)`: decimal digits with
an optional decimal point, at least one digit overall. -/
def pyFloatMag (cs : List Char) : Option ℚ :=
  match splitDot cs with
  | [a] => (digitsToNat a).map (fun n => (n : ℚ))
  | [a, b] =>
    if a.all Char.isDigit ∧ b.all Char.isDigit ∧ (a ≠ [] ∨ b ≠ []) then
      Option.some ((digitsVal a : ℚ) + (digitsVal b : ℚ) / (10 : ℚ) ^ b.length)
    else Option.none
  | _ => Option.none

/-- Model of the Python builtin `float(str)` used by `cast_record`:
optional sign and a decimal magnitude; anything else raises `ValueError`
(modelled as `none`).  Exponent, `inf`/`nan` and whitespace forms are not
modelled. -/
def pyFloat (s : String) : Option ℚ :=
  match s.data with
  | '-' :: rest => (pyFloatMag rest).map (fun q => -q)
  | '+' :: rest => pyFloatMag rest
  | cs => pyFloatMag cs

/-- Cast of a single present (non-empty) field value, the body of the
`try` block of `RuleValidator.cast_record` (rule_validator.py, lines
95-104): ints and floats are parsed with fallback to the raw string on
`ValueError`; `bool(value)` of a non-empty Python string is always
`True`; every other declared type, and every field absent from the
`_dtypes` mapping, keeps its raw string value. -/
def castValue (dtypes : List (String × DType)) (key : String) (v : String) : Value :=
  match lookupKey dtypes key with
  | Option.some DType.int =>
    match pyInt v with
    | Option.some n => Value.vint n
    | Option.none => Value.vstr v
  | Option.some DType.float =>
    match pyFloat v with
    | Option.some q => Value.vfloat q
    | Option.none => Value.vstr v
  | Option.some DType.bool => Value.vbool true
  | _ => Value.vstr v

/-- Embedding of `RuleValidator.cast_record` (rule_validator.py, lines
80-106).  When the field-to-type mapping `_dtypes` is falsy (schema empty
or no field declares a type) the record is returned unchanged; otherwise
each empty raw value becomes the absent marker `None` and each non-empty
value is cast per `castValue`.  Python `not value` on a `str` holds
exactly for the empty string. -/
def cast_record (dtypes : List (String × DType)) (record : RawRecord) : CastRecord :=
  if dtypes.isEmpty then record.map (fun p => (p.1, Value.vstr p.2))
  else record.map (fun p => (p.1, if p.2 = "" then Value.none else castValue dtypes p.1 p.2))

theorem cast_record_length (dtypes : List (String × DType)) (record : RawRecord) :
    (cast_record dtypes record).length = record.length := by
  unfold cast_record
  by_cases h : dtypes.isEmpty <;> simp [h]

/-- Embedding of `NumericRangeRule` (rule.py, lines 25-31): a range check
over a numeric value.  Python floats are modelled as rationals. -/
structure NumericRangeRule where
  code : String
  min_val : ℚ
  max_val : ℚ
deriving DecidableEq, Repr

/-- Embedding of `NumericRangeRule.apply` (rule.py, lines 33-44).  The
Python method clears `error_msg`, returns `True` when
`min_val <= var_value <= max_val`, and otherwise sets the error message
and returns `False`; the pair below is (return value, `error_msg` after
the call). -/
def NumericRangeRule.apply (r : NumericRangeRule) (var_name : String) (var_value : ℚ) :
    Bool × String :=
  if r.min_val ≤ var_value ∧ var_value ≤ r.max_val then (true, "")
  else
    (false,
      "Range check failed for the field \"" ++ var_name ++ "\": current value - " ++
        toString var_value ++ ", expected range - [" ++ toString r.min_val ++ " - " ++
        toString r.max_val ++ "]")

/-- Modelled from the spec: `MaxValueRule` is imported by parser.py
(line 9) and constructed by `Parser.get_rule_object` (line 116), but its
class definition is absent from src/ (rule.py defines only `Rule` and
`NumericRangeRule`).  The spec states that MaxValue(max) passes iff
`value <= max`; the error message is unspecified and modelled as empty. -/
structure MaxValueRule where
  code : String
  max_val : ℚ
deriving DecidableEq, Repr

/-- Modelled from the spec: application of the missing `MaxValueRule` —
passes iff `value <= max`. -/
def MaxValueRule.apply (r : MaxValueRule) (_var_name : String) (var_value : ℚ) :
    Bool × String :=
  if var_value ≤ r.max_val then (true, "") else (false, "")

/-- Sum of the rule objects `Parser.get_rule_object` can build. -/
inductive RuleObj where
  | numRange (r : NumericRangeRule)
  | maxVal (r : MaxValueRule)
deriving DecidableEq, Repr

/-- Rule definition as read from a form definition JSON file: a `code`
plus the remaining numeric attributes of the JSON object. -/
structure RuleDef where
  code : String
  attrs : List (String × ℚ)
deriving DecidableEq, Repr

/-- Python subscript `rule_def[key]`: a missing key raises `KeyError`,
modelled as `Except.error`. -/
def dictGet (rd : RuleDef) (key : String) : Except String ℚ :=
  match lookupKey rd.attrs key with
  | Option.some q => Except.ok q
  | Option.none => Except.error ("KeyError: " ++ key)

/-- Embedding of `Parser.get_rule_object` (parser.py, lines 106-118):
starts with `rule = None`, then two successive (non-exclusive) `if`
branches on the rule code build a `NumericRangeRule` from the `min` and
`max` attributes or a `MaxValueRule` from the `max` attribute. -/
def get_rule_object (rd : RuleDef) : Except String (Option RuleObj) := do
  let rule0 : Option RuleObj := Option.none
  let rule1 ←
    if rd.code = "NUMRANGE" then do
      let mn ← dictGet rd "min"
      let mx ← dictGet rd "max"
      pure (Option.some (RuleObj.numRange ⟨rd.code, mn, mx⟩))
    else pure rule0
  let rule2 ←
    if rd.code = "MAXVAL" then do
      let mx ← dictGet rd "max"
      pure (Option.some (RuleObj.maxVal ⟨rd.code, mx⟩))
    else pure rule1
  pure rule2

/-- Python truthiness of a cast field value: `None`, `''`, `0`, `0.0` and
`False` are falsy.  Used by `RuleValidator._validate_filled`. -/
def truthyV : Value → Bool
  | Value.none => false
  | Value.vstr s => s ≠ ""
  | Value.vint n => n ≠ 0
  | Value.vfloat q => q ≠ 0
  | Value.vbool b => b

/-- Leaf cerberus rule set usable inside the `if` / `then` parts of a
`constraints` entry.  The repository's custom rules and the stock
cerberus rules it relies on are `type`, `nullable` and `filled`;
conditional sub-schemas are modelled as leaf rule sets. -/
structure SubRules where
  ftype : Option DType := Option.none
  nullable : Option Bool := Option.none
  filled : Option Bool := Option.none
deriving DecidableEq, Repr

/-- One entry of a `constraints` list (rule_validator.py, lines 121-163):
a JSON object that is supposed to carry an `if` part (conditions on
dependent fields) and a `then` part (conditions on the field itself).
Either part can be missing in a malformed rule file, hence the
`Option`s. -/
structure Constraint where
  ifConds : Option (List (String × SubRules)) := Option.none
  thenConds : Option SubRules := Option.none
deriving DecidableEq, Repr

/-- Cerberus rule set attached to one schema field. -/
structure FieldRules where
  ftype : Option DType := Option.none
  nullable : Option Bool := Option.none
  filled : Option Bool := Option.none
  constraints : List Constraint := []
deriving DecidableEq, Repr

/-- Validation schema: field name to rule set, as loaded by the Parser. -/
abbrev Schema := List (String × FieldRules)

/-- Name of a cerberus data type inside a type-error message. -/
def typeName : DType → String
  | DType.int => "integer"
  | DType.float => "float"
  | DType.bool => "boolean"
  | DType.str => "string"
  | DType.date => "date"
  | DType.datetime => "datetime"

/-- Modelled from the spec: the cerberus `type` rule (the cerberus
library is an external dependency, absent from src/) — an instance check
of the runtime value against the declared type.  Uncast strings never
satisfy a numeric, boolean or date type, which is how "non-castable
values … fail type-specific rules naturally". -/
def typeMatches : DType → Value → Bool
  | DType.int, Value.vint _ => true
  | DType.float, Value.vfloat _ => true
  | DType.bool, Value.vbool _ => true
  | DType.str, Value.vstr _ => true
  | _, _ => false

/-- Embedding of `RuleValidator._validate_filled` (rule_validator.py,
lines 108-119): `filled=false` errors on a truthy value, `filled=true`
errors on a falsy value. -/
def filledErrors (filled : Option Bool) (v : Value) : List String :=
  match filled with
  | Option.none => []
  | Option.some f =>
    if !f ∧ truthyV v then ["must be empty"]
    else if f ∧ !truthyV v then ["cannot be empty"]
    else []

/-- Modelled from the spec: the cerberus per-field leaf rule dispatch
(external library).  A `None` value triggers only the `nullable` rule
(error unless `nullable: true`); otherwise a failing `type` rule
suppresses the remaining rules; otherwise the custom `filled` rule
runs. -/
def leafErrors (ftype : Option DType) (nullable : Option Bool) (filled : Option Bool)
    (v : Value) : List String :=
  if v = Value.none then
    if nullable = Option.some true then [] else ["null value not allowed"]
  else
    match ftype with
    | Option.some t =>
      if !typeMatches t v then ["must be of " ++ typeName t ++ " type"]
      else filledErrors filled v
    | Option.none => filledErrors filled v

/-- Errors of a leaf sub-schema against an optional document value; an
absent field triggers no rule (the repository never uses `required`). -/
def evalSub (sr : SubRules) (v : Option Value) : List String :=
  match v with
  | Option.none => []
  | Option.some v => leafErrors sr.ftype sr.nullable sr.filled v

/-- Embedding of the body of the `for constraint in constraints` loop of
`RuleValidator._validate_constraints` (rule_validator.py, lines 130-162).
A constraint missing its `if` or `then` attribute raises
`cerberus.schema.SchemaError` at record-evaluation time (the `except
KeyError` branch, lines 136-140).  Otherwise the dependency conditions
are evaluated as a conjunction against the full document through a
sub-validator, and only when they all hold is the `then` sub-schema
evaluated on the field's own value; a failing `then` evaluation emits a
single error naming the dependency conditions. -/
def constraintErrors (doc : CastRecord) (field : String) (v : Value) (c : Constraint) :
    Except String (List String) :=
  match c.ifConds, c.thenConds with
  | Option.some deps, Option.some thens =>
    let valid := deps.all (fun p => (evalSub p.2 (lookupKey doc p.1)).isEmpty)
    if valid then
      let subErrs := evalSub thens (Option.some v)
      Except.ok
        (if subErrs.isEmpty then []
         else [String.intercalate "; " subErrs ++ " for the dependency conditions"])
    else Except.ok []
  | _, _ =>
    Except.error
      ("SchemaError: Missing required attribute in constraint for field " ++ field)

/-- Constraint errors accumulated over the whole `constraints` list. -/
def constraintsListErrors (doc : CastRecord) (field : String) (v : Value) :
    List Constraint → Except String (List String)
  | [] => Except.ok []
  | c :: rest => do
    let e1 ← constraintErrors doc field v c
    let e2 ← constraintsListErrors doc field v rest
    pure (e1 ++ e2)

/-- All errors one schema field contributes for its present value:
`nullable` / `type` gate first (modelled from the cerberus dispatch),
then the repository's custom `constraints` and `filled` rules. -/
def fieldErrors (doc : CastRecord) (field : String) (fr : FieldRules) (v : Value) :
    Except String (List String) :=
  if v = Value.none then
    Except.ok (if fr.nullable = Option.some true then [] else ["null value not allowed"])
  else
    match fr.ftype with
    | Option.some t =>
      if !typeMatches t v then Except.ok ["must be of " ++ typeName t ++ " type"]
      else do
        let ce ← constraintsListErrors doc field v fr.constraints
        pure (ce ++ filledErrors fr.filled v)
    | Option.none => do
      let ce ← constraintsListErrors doc field v fr.constraints
      pure (ce ++ filledErrors fr.filled v)

/-- Flat error accumulation over the schema fields, mirroring the
cerberus internal `_errors` list: each emitted error is a
(field, message) pair, in emission order. -/
def schemaErrors (doc : CastRecord) : Schema → Except String (List (String × String))
  | [] => Except.ok []
  | (f, fr) :: rest => do
    let e1 ←
      match lookupKey doc f with
      | Option.none => pure ([] : List (String × String))
      | Option.some v => (fieldErrors doc f fr v).map (List.map (fun m => (f, m)))
    let e2 ← schemaErrors doc rest
    pure (e1 ++ e2)

/-- Modelled from the spec: cerberus `allow_unknown` handling (external
library).  The engine is built with `allow_unknown = not strict`
(quality_check.py, line 100); in strict mode every document field absent
from the schema yields an "unknown field" error. -/
def unknownFieldErrors (schema : Schema) (strict : Bool) (doc : CastRecord) :
    List (String × String) :=
  if strict then
    (doc.filter (fun p => lookupKey schema p.1 = Option.none)).map
      (fun p => (p.1, "unknown field"))
  else []

/-- Helper for `groupErrors`: walks the flat error list, emitting each
field's collected message list at the field's first occurrence and
skipping fields already grouped. -/
def groupErrorsAux (all : List (String × String)) :
    List (String × String) → List String → List (String × List String)
  | [], _ => []
  | (f, m) :: rest, seen =>
    if f ∈ seen then groupErrorsAux all rest seen
    else
      (f, m :: (rest.filter (fun p => p.1 = f)).map Prod.snd) ::
        groupErrorsAux all rest (f :: seen)

/-- Rendering of the flat internal error list as the per-field error
mapping exposed by the cerberus `errors` property: fields in order of
first faulty occurrence, each with its collected message list. -/
def groupErrors (l : List (String × String)) : List (String × List String) :=
  groupErrorsAux l l []

/-- Embedding of `RuleValidator.__populate_data_types`
(rule_validator.py, lines 49-73): the field-to-type mapping extracted
from the schema; fields without a `type` attribute are left out. -/
def dtypesOf (schema : Schema) : List (String × DType) :=
  schema.filterMap (fun p => p.2.ftype.map (fun t => (p.1, t)))

/-- The validation engine: the merged schema plus the strict flag (which
drives `allow_unknown`), as held by `QualityCheck`. -/
structure QCEngine where
  schema : Schema
  strict : Bool
deriving DecidableEq, Repr

/-- Embedding of the engine-construction step of
`QualityCheck.__load_rules` (quality_check.py, lines 98-105): the
`RuleValidator` constructor runs the cerberus construction-time schema
validation, which checks only that each rule's argument has the declared
shape (for `constraints`, that it is a list — its docstring schema at
rule_validator.py line 125); the typed embedding satisfies those checks
by construction, so engine construction succeeds for every `Schema`,
malformed constraint entries included. -/
def load_rules (schema : Schema) (strict : Bool) : Except String QCEngine :=
  Except.ok ⟨schema, strict⟩

/-- Embedding of `QualityCheck.check_record_cerberus` (quality_check.py,
lines 107-126): cast a private copy of the record, validate it, and
return the cerberus success flag (`validate` returns whether the internal
flat error list stayed empty) together with the rendered `errors`
mapping.  A `SchemaError` escaping `_validate_constraints` propagates to
the caller, hence the `Except`. -/
def check_record_cerberus (eng : QCEngine) (record : RawRecord) :
    Except String (Bool × List (String × List String)) :=
  match schemaErrors (cast_record (dtypesOf eng.schema) record) eng.schema with
  | Except.error e => Except.error e
  | Except.ok flat =>
    let flatAll :=
      flat ++ unknownFieldErrors eng.schema eng.strict
        (cast_record (dtypesOf eng.schema) record)
    Except.ok (flatAll.isEmpty, groupErrors flatAll)

/-- Observable settings of one REDCap project, as returned by the
connection wrapper used in `DataHandler.compare_project_settings`
(data_handler.py, lines 108-187).  Every export call returns a JSON text
or the falsy `False` on a failed request; `Option.none` models the
latter. -/
structure ProjSettings where
  dataDict : Option String
  longitudinal : Bool
  arms : Option String
  events : Option String
  formEventMap : Option String
  repeating : Bool
  repeatIns : Option String
deriving DecidableEq, Repr

/-- Python falsiness of a `str | bool` export result: `False` or the
empty string. -/
def falsyOpt : Option String → Bool
  | Option.none => true
  | Option.some s => s = ""

/-- The aspects `compare_project_settings` can compare, in source
order. -/
inductive Aspect where
  | dataDict
  | longFlag
  | arms
  | events
  | mappings
  | rptFlag
  | rptDefs
deriving DecidableEq, Repr

/-- Tail of `compare_project_settings` from line 168 onwards: the
repeating-instrument flag comparison and, when both projects repeat, the
repeating-instrument definitions; `tr` is the trace of aspects already
compared. -/
def compareRepeating (s d : ProjSettings) (tr : List Aspect) : Bool × List Aspect :=
  if (s.repeating && !d.repeating) || (d.repeating && !s.repeating) then
    (false, tr ++ [Aspect.rptFlag])
  else if s.repeating && d.repeating then
    if s.repeatIns ≠ d.repeatIns then
      (false, tr ++ [Aspect.rptFlag, Aspect.rptDefs])
    else (true, tr ++ [Aspect.rptFlag, Aspect.rptDefs])
  else (true, tr ++ [Aspect.rptFlag])

/-- Embedding of `DataHandler.compare_project_settings` (data_handler.py,
lines 108-187).  The boolean is the return value; the `List Aspect`
records which aspects were actually compared, in order, so that the
short-circuiting behaviour is observable. -/
def compare_project_settings (s d : ProjSettings) : Bool × List Aspect :=
  if falsyOpt s.dataDict || falsyOpt d.dataDict || s.dataDict ≠ d.dataDict then
    (false, [Aspect.dataDict])
  else if (s.longitudinal && !d.longitudinal) || (d.longitudinal && !s.longitudinal) then
    (false, [Aspect.dataDict, Aspect.longFlag])
  else if s.longitudinal && d.longitudinal then
    if s.arms ≠ d.arms then
      (false, [Aspect.dataDict, Aspect.longFlag, Aspect.arms])
    else if s.events ≠ d.events then
      (false, [Aspect.dataDict, Aspect.longFlag, Aspect.arms, Aspect.events])
    else if s.formEventMap ≠ d.formEventMap then
      (false, [Aspect.dataDict, Aspect.longFlag, Aspect.arms, Aspect.events, Aspect.mappings])
    else
      compareRepeating s d
        [Aspect.dataDict, Aspect.longFlag, Aspect.arms, Aspect.events, Aspect.mappings]
  else compareRepeating s d [Aspect.dataDict, Aspect.longFlag]

/-- Context for `DataHandler.validate_data` and
`DataHandler.compose_error_report_for_record`: the primary-key field of
the source project, the quality checker (its outcome on each record, the
`Except.ok` case of `check_record_cerberus`), whether a validation-error
reporting form is configured, the current timestamp string, and the
data-dictionary lookups used to render error reports. -/
structure VCtx where
  primary_key : String
  check : RawRecord → Bool × List (String × List String)
  qcErrForm : Bool
  ts : String
  formName : String → String
  fieldLabel : String → String

/-- Python `record[self.__src_project.primary_key]` on an exported
record; exported records always carry the primary key field. -/
def recId (ctx : VCtx) (r : RawRecord) : String :=
  (lookupKey r ctx.primary_key).getD ""

/-- Error text assembled by the loop at data_handler.py, lines 397-404:
one line per faulty variable naming its form, label, name, current value,
and messages. -/
def errorText (ctx : VCtx) (r : RawRecord) (errors : List (String × List String)) :
    String :=
  errors.foldl
    (fun acc p =>
      acc ++ "Form Name: " ++ ctx.formName p.1 ++ " | " ++ "Question: " ++
        ctx.fieldLabel p.1 ++ " | " ++ "Variable: " ++ p.1 ++ " | " ++
        "Current value: " ++ ((lookupKey r p.1).getD "") ++ " | " ++ "Errors: " ++
        String.intercalate ", " p.2 ++ "\n")
    ""

/-- Embedding of `DataHandler.compose_error_report_for_record`
(data_handler.py, lines 370-413): the failed record is a copy of the
original, annotated with a timestamp and the error text when an error
reporting form is configured. -/
def compose_error_report (ctx : VCtx) (r : RawRecord)
    (errors : List (String × List String)) : RawRecord :=
  if ctx.qcErrForm then r ++ [("timestamp", ctx.ts), ("val_errs", errorText ctx r errors)]
  else r

/-- Python `set.add` on the valid-identifier set, modelled as
append-if-new so that the collection stays duplicate-free. -/
def insertId (s : List String) (x : String) : List String :=
  if x ∈ s then s else s ++ [x]

/-- Accumulating loop of `DataHandler.validate_data` (data_handler.py,
lines 354-363): each record either joins the valid records (its id
joining the valid-id set) or is turned into an error report. -/
def validate_data_aux (ctx : VCtx) (records : List RawRecord)
    (acc : List String × List RawRecord × List RawRecord) :
    List String × List RawRecord × List RawRecord :=
  match records with
  | [] => acc
  | r :: rest =>
    let res := ctx.check r
    if res.1 then
      validate_data_aux ctx rest
        (insertId acc.1 (recId ctx r), acc.2.1 ++ [r], acc.2.2)
    else
      validate_data_aux ctx rest
        (acc.1, acc.2.1, acc.2.2 ++ [compose_error_report ctx r res.2])

/-- Embedding of `DataHandler.validate_data` (data_handler.py, lines
334-368): returns the valid-id list (a Python `set` rendered as a list),
the valid records, and the annotated failed records. -/
def validate_data (ctx : VCtx) (records : List RawRecord) :
    List String × List RawRecord × List RawRecord :=
  validate_data_aux ctx records ([], [], [])

/-- Environment of the transfer orchestrator: the candidate identifier
list set by `export_record_ids`, the remote calls as functions (`none`
models the falsy `False` of a failed request), the validation context,
and the form/event scope used by the move-vs-copy check. -/
structure TCtx where
  vctx : VCtx
  record_ids : List String
  exportRecs : Option (List String) → Option (List RawRecord)
  importDest : List RawRecord → Option Nat
  importSrc : List RawRecord → Option Nat
  deleteRecs : List String → Option Nat
  forms : List String
  all_forms : List String
  events : Option (List String)

/-- Python truthiness of the `int | bool` result of `import_records` or
`delete_records`: `False` and `0` are both falsy. -/
def truthyCount : Option Nat → Bool
  | Option.none => false
  | Option.some n => n ≠ 0

/-- Python truthiness of the optional events filter `self.__events`:
truthy only for a non-empty list. -/
def truthyEvents : Option (List String) → Bool
  | Option.none => false
  | Option.some l => l ≠ []

/-- Outcome of `DataHandler.move_records`: either it returned `False`
without calling `delete_records` (subset scope), or it delegated to
`delete_records` and returned that result. -/
inductive MoveOutcome where
  | skippedSubset
  | deleted (res : Option Nat)
deriving DecidableEq, Repr

/-- Embedding of `DataHandler.move_records` (data_handler.py, lines
415-434): the subset precondition is
`len(forms) < len(all_forms) - 1 or events`; when it holds the method
warns and returns `False` without touching the source, otherwise it
calls `delete_records` on the given identifiers.  Nat subtraction agrees
with the Python expression here because `len(forms) < -1` is unsatisfiable
exactly as `len(forms) < 0` is. -/
def move_records (ctx : TCtx) (record_ids : List String) : MoveOutcome :=
  if ctx.forms.length < ctx.all_forms.length - 1 ∨ truthyEvents ctx.events then
    MoveOutcome.skippedSubset
  else MoveOutcome.deleted (ctx.deleteRecs record_ids)

/-- Observable remote effects of one batch of the transfer loop, in
order. -/
inductive Action where
  | exported (filter : Option (List String)) (ok : Bool)
  | imported (recs : List RawRecord) (res : Option Nat)
  | deleted (ids : List String) (res : Option Nat)
  | deleteSkipped
  | wroteBack (recs : List RawRecord) (res : Option Nat)
deriving DecidableEq, Repr

/-- Write-back of the failed records (data_handler.py, lines 317-323):
performed only when the batch produced failed records. -/
def writeBackActs (ctx : TCtx) (failedRecs : List RawRecord) : List Action :=
  if failedRecs.length ≠ 0 then [Action.wroteBack failedRecs (ctx.importSrc failedRecs)]
  else []

/-- Embedding of one iteration of the `while i < iterations` loop of
`DataHandler.transfer_data` (data_handler.py, lines 262-325), as the list
of remote calls it performs: export the batch (a falsy result advances to
the next batch), validate, import the valid records to the destination
(a falsy import count advances to the next batch via `continue`,
skipping both the deletion and the failed-record write-back), then, on a
truthy import count, optionally move the valid records and finally write
the failed records back to the source. -/
def processBatch (ctx : TCtx) (mv : Bool) (filter : Option (List String)) : List Action :=
  match ctx.exportRecs filter with
  | Option.none => [Action.exported filter false]
  | Option.some records =>
    let res := validate_data ctx.vctx records
    let validIds := res.1
    let validRecs := res.2.1
    let failedRecs := res.2.2
    if validRecs.length > 0 then
      let imp := ctx.importDest validRecs
      if truthyCount imp then
        [Action.exported filter true, Action.imported validRecs imp] ++
          (if mv then
            match move_records ctx validIds with
            | MoveOutcome.skippedSubset => [Action.deleteSkipped]
            | MoveOutcome.deleted r => [Action.deleted validIds r]
          else []) ++ writeBackActs ctx failedRecs
      else [Action.exported filter true, Action.imported validRecs imp]
    else [Action.exported filter true] ++ writeBackActs ctx failedRecs

/-- Ceiling division on naturals; equals `math.ceil(n / b)` for `b > 0`
(data_handler.py, line 258). -/
def ceilDiv (n b : Nat) : Nat := (n + b - 1) / b

/-- Number of loop iterations (data_handler.py, lines 252-258): `1`
unless a positive batch size is given, in which case
`ceil(num_records / batch_size_val)`. -/
def batchCount (numRecords : Nat) (batchSizeVal : Int) : Nat :=
  if 0 < batchSizeVal then ceilDiv numRecords batchSizeVal.toNat else 1

/-- Effective batch size (data_handler.py, lines 252-257): the whole
record count unless a positive batch size is given. -/
def batchSizeN (numRecords : Nat) (batchSizeVal : Int) : Nat :=
  if 0 < batchSizeVal then batchSizeVal.toNat else numRecords

/-- The `record_ids[begin:end]` slice of batch `i` (data_handler.py,
lines 263-275), with `begin = i * batch_size` and
`end = min((i + 1) * batch_size, num_records)`. -/
def batchSlice (ids : List String) (batchSizeVal : Int) (i : Nat) : List String :=
  let bs := batchSizeN ids.length batchSizeVal
  (ids.drop (i * bs)).take (min ((i + 1) * bs) ids.length - i * bs)

/-- Identifier filter passed to the export call for batch `i`
(data_handler.py, lines 270-275): `None` (export everything) in the
single-iteration case, the batch slice otherwise. -/
def batchFilter (ids : List String) (batchSizeVal : Int) (i : Nat) :
    Option (List String) :=
  if batchCount ids.length batchSizeVal = 1 then Option.none
  else Option.some (batchSlice ids batchSizeVal i)

/-- Embedding of the batch loop of `DataHandler.transfer_data`
(data_handler.py, lines 252-325), reached once the candidate identifiers
are known and non-empty: the per-batch traces of remote calls, one list
of actions per iteration. -/
def transfer_data (ctx : TCtx) (batchSizeVal : Int) (mv : Bool) : List (List Action) :=
  (List.range (batchCount ctx.record_ids.length batchSizeVal)).map
    (fun i => processBatch ctx mv (batchFilter ctx.record_ids batchSizeVal i))

/-- C5: for every field name and numeric value `v`, a NumericRange(min,max)
rule passes iff `min <= v <= max`, both boundary values pass (for a
well-formed range `min <= max`), and on failure the error message carries
the field name, the current value and the expected range. -/
theorem numeric_range_rule_spec (mn mx : ℚ) (name : String) (v : ℚ) :
    ((NumericRangeRule.apply ⟨"NUMRANGE", mn, mx⟩ name v).1 = true ↔ mn ≤ v ∧ v ≤ mx)
    ∧ (mn ≤ mx →
        (NumericRangeRule.apply ⟨"NUMRANGE", mn, mx⟩ name mn).1 = true
        ∧ (NumericRangeRule.apply ⟨"NUMRANGE", mn, mx⟩ name mx).1 = true)
    ∧ ((NumericRangeRule.apply ⟨"NUMRANGE", mn, mx⟩ name v).1 = false →
        (NumericRangeRule.apply ⟨"NUMRANGE", mn, mx⟩ name v).2 =
          "Range check failed for the field \"" ++ name ++ "\": current value - " ++
            toString v ++ ", expected range - [" ++ toString mn ++ " - " ++
            toString mx ++ "]") := by
  refine ⟨?_, ?_, ?_⟩
  · unfold NumericRangeRule.apply
    split <;> simp_all
  · intro hle
    constructor <;>
      · unfold NumericRangeRule.apply
        split <;> simp_all
  · unfold NumericRangeRule.apply
    split <;> simp_all

theorem numeric_range_rule_spec_witness :
    (NumericRangeRule.apply ⟨"NUMRANGE", (50 : ℚ), 90⟩ "bp" (95 : ℚ)).1 = false
    ∧ (NumericRangeRule.apply ⟨"NUMRANGE", (50 : ℚ), 90⟩ "bp" (50 : ℚ)).1 = true
    ∧ (NumericRangeRule.apply ⟨"NUMRANGE", (50 : ℚ), 90⟩ "bp" (90 : ℚ)).1 = true := by
  have h := numeric_range_rule_spec (50 : ℚ) 90 "bp" (95 : ℚ)
  have hb := (h.2.1 (by norm_num))
  refine ⟨?_, hb.1, hb.2⟩
  by_contra hc
  have := (h.1).mp (by revert hc; cases hx : (NumericRangeRule.apply ⟨"NUMRANGE", (50 : ℚ), 90⟩ "bp" (95 : ℚ)).1 <;> simp)
  norm_num at this

/-- C6: a rule definition with code MAXVAL and a `max` attribute parses to
a MaxValue rule, and applying that rule passes iff `value <= max`. -/
theorem max_value_rule_spec (rd : RuleDef) (m : ℚ) (name : String) (v : ℚ)
    (hcode : rd.code = "MAXVAL") (hmax : dictGet rd "max" = Except.ok m) :
    get_rule_object rd = Except.ok (Option.some (RuleObj.maxVal ⟨"MAXVAL", m⟩))
    ∧ ((MaxValueRule.apply ⟨"MAXVAL", m⟩ name v).1 = true ↔ v ≤ m) := by
  constructor
  · unfold get_rule_object
    rw [hcode]
    simp [hmax]
  · unfold MaxValueRule.apply
    split <;> simp_all

theorem max_value_rule_spec_witness :
    get_rule_object ⟨"MAXVAL", [("max", (10 : ℚ))]⟩ =
      Except.ok (Option.some (RuleObj.maxVal ⟨"MAXVAL", (10 : ℚ)⟩))
    ∧ (MaxValueRule.apply ⟨"MAXVAL", (10 : ℚ)⟩ "age" (7 : ℚ)).1 = true := by
  have h := max_value_rule_spec ⟨"MAXVAL", [("max", (10 : ℚ))]⟩ (10 : ℚ) "age" (7 : ℚ)
    rfl (by rfl)
  exact ⟨h.1, (h.2).mpr (by norm_num)⟩

theorem groupErrors_nil_iff (l : List (String × String)) :
    groupErrors l = [] ↔ l = [] := by
  cases l with
  | nil => simp [groupErrors, groupErrorsAux]
  | cons h t =>
    obtain ⟨f, m⟩ := h
    simp [groupErrors, groupErrorsAux]

/-- C4: whenever record evaluation completes (no schema error), the
returned pass flag is true iff the returned per-field error mapping is
empty. -/
theorem check_passed_iff_no_errors (eng : QCEngine) (record : RawRecord)
    (p : Bool) (errs : List (String × List String))
    (h : check_record_cerberus eng record = Except.ok (p, errs)) :
    p = true ↔ errs = [] := by
  unfold check_record_cerberus at h
  cases hs : schemaErrors (cast_record (dtypesOf eng.schema) record) eng.schema with
  | error e => rw [hs] at h; simp at h
  | ok flat =>
    rw [hs] at h
    simp only [Except.ok.injEq, Prod.mk.injEq] at h
    obtain ⟨hp, he⟩ := h
    subst hp
    subst he
    rw [List.isEmpty_iff, groupErrors_nil_iff]

theorem check_passed_iff_no_errors_witness :
    ∃ p errs,
      check_record_cerberus ⟨[("a", { ftype := Option.some DType.int })], true⟩
          [("a", "5")] = Except.ok (p, errs)
      ∧ (p = true ↔ errs = []) := by
  refine ⟨true, [], by rfl, ?_⟩
  exact check_passed_iff_no_errors ⟨[("a", { ftype := Option.some DType.int })], true⟩
    [("a", "5")] true [] (by rfl)

/-- Schema holding a single conditional constraint that lacks its `if`
attribute — a malformed rule definition. -/
def schemaMissingIf : Schema :=
  [("a", { constraints := [{ thenConds := Option.some { filled := Option.some true } }] })]

/-- C7 (divergence witness): the engine is constructed successfully from a
schema whose conditional constraint lacks the `if` attribute, and the
schema error is raised only when a record containing the field is
evaluated — not at rule-load time as the spec requires. -/
theorem constraint_schema_error_at_eval_time :
    load_rules schemaMissingIf true = Except.ok ⟨schemaMissingIf, true⟩
    ∧ check_record_cerberus ⟨schemaMissingIf, true⟩ [("a", "1")] =
        Except.error "SchemaError: Missing required attribute in constraint for field a" := by
  constructor
  · rfl
  · rfl

/-- C9 counterexample: with a schema declaring no typed field (`_dtypes`
falsy) the early return of `cast_record` leaves the record untouched, so
the empty raw value of field `a` is NOT replaced by the absent marker,
contradicting the claim that every empty/blank value is so replaced. -/
theorem cast_record_empty_dtypes_counterexample :
    cast_record [] [("a", "")] = [("a", Value.vstr "")]
    ∧ Value.vstr "" ≠ Value.none := by
  exact ⟨rfl, by simp⟩

/-- C9 (amended): casting never removes a field key (same length, same
key at every index and hence total over the record); provided at least
one field declares a type, an empty raw value becomes the absent marker
`Value.none`, a raw string that fails to parse as the field's declared
numeric type stays the original raw string, and a field absent from the
type mapping passes through unchanged; with no typed fields the whole
record passes through unchanged. -/
theorem cast_record_pointwise (dtypes : List (String × DType)) (r : RawRecord)
    (i : Nat) (hi : i < r.length) :
    ((cast_record dtypes r).length = r.length)
    ∧ ((cast_record dtypes r).getD i ("", Value.none)).1 = (r.getD i ("", "")).1
    ∧ (dtypes = [] →
        ((cast_record dtypes r).getD i ("", Value.none)).2 =
          Value.vstr (r.getD i ("", "")).2)
    ∧ (dtypes ≠ [] → (r.getD i ("", "")).2 = "" →
        ((cast_record dtypes r).getD i ("", Value.none)).2 = Value.none)
    ∧ (dtypes ≠ [] → (r.getD i ("", "")).2 ≠ "" →
        (lookupKey dtypes (r.getD i ("", "")).1 = Option.some DType.int →
          pyInt (r.getD i ("", "")).2 = Option.none →
          ((cast_record dtypes r).getD i ("", Value.none)).2 =
            Value.vstr (r.getD i ("", "")).2)
        ∧ (lookupKey dtypes (r.getD i ("", "")).1 = Option.some DType.float →
          pyFloat (r.getD i ("", "")).2 = Option.none →
          ((cast_record dtypes r).getD i ("", Value.none)).2 =
            Value.vstr (r.getD i ("", "")).2)
        ∧ (lookupKey dtypes (r.getD i ("", "")).1 = Option.none →
          ((cast_record dtypes r).getD i ("", Value.none)).2 =
            Value.vstr (r.getD i ("", "")).2)) := by
  have hlen : (cast_record dtypes r).length = r.length := cast_record_length dtypes r
  have hr : r[i]? = Option.some r[i] := List.getElem?_eq_getElem hi
  have hPd : r.getD i ("", "") = r[i] := by
    simp [List.getD_eq_getElem?_getD, hr]
  have hQ : (cast_record dtypes r).getD i ("", Value.none) =
      (r[i].1,
        if dtypes.isEmpty then Value.vstr r[i].2
        else if r[i].2 = "" then Value.none else castValue dtypes r[i].1 r[i].2) := by
    unfold cast_record
    by_cases hd : dtypes.isEmpty <;>
      simp [hd, List.getD_eq_getElem?_getD, List.getElem?_map, hr]
  refine ⟨hlen, ?_, ?_, ?_, ?_⟩
  · rw [hPd, hQ]
  · intro hdt
    rw [hPd, hQ]
    simp [hdt]
  · intro hdt hv
    rw [hPd] at hv
    have hne : ¬ dtypes.isEmpty := by simpa [List.isEmpty_iff] using hdt
    rw [hQ]
    simp [hne, hv]
  · intro hdt hv
    rw [hPd] at hv
    have hne : ¬ dtypes.isEmpty := by simpa [List.isEmpty_iff] using hdt
    refine ⟨?_, ?_, ?_⟩ <;> rw [hPd] <;> intro hlk
    · intro hparse
      rw [hQ]
      simp only [hne, if_false, if_neg hv]
      unfold castValue
      rw [hlk, hparse]
      simp
    · intro hparse
      rw [hQ]
      simp only [hne, if_false, if_neg hv]
      unfold castValue
      rw [hlk, hparse]
      simp
    · rw [hQ]
      simp only [hne, if_false, if_neg hv]
      unfold castValue
      rw [hlk]
      simp

theorem cast_record_pointwise_witness :
    ((cast_record [("x", DType.int)] [("x", "abc"), ("y", "")]).getD 0
        ("", Value.none)).2 = Value.vstr "abc"
    ∧ ((cast_record [("x", DType.int)] [("x", "abc"), ("y", "")]).getD 1
        ("", Value.none)).2 = Value.none := by
  have h0 := cast_record_pointwise [("x", DType.int)] [("x", "abc"), ("y", "")] 0
    (by simp)
  have h1 := cast_record_pointwise [("x", DType.int)] [("x", "abc"), ("y", "")] 1
    (by simp)
  constructor
  · exact (h0.2.2.2.2 (by simp) (by simp)).1 (by rfl) (by rfl)
  · exact h1.2.2.2.1 (by simp) (by rfl)

/-- Trivial validation context used by the concrete transfer scenarios:
a primary key `pid`, a checker that accepts a record iff its `ok` field
holds `1`, and no error-reporting form. -/
def vctxOkFlag : VCtx where
  primary_key := "pid"
  check := fun r => (lookupKey r "ok" = Option.some "1", [])
  qcErrForm := false
  ts := ""
  formName := fun _ => ""
  fieldLabel := fun _ => ""

/-- Concrete handler context for the move-vs-copy counterexample: no
error-reporting form is configured, the project has two forms, and the
validated scope covers exactly one of them — a strict subset. -/
def ctxSubset : TCtx where
  vctx := vctxOkFlag
  record_ids := ["1"]
  exportRecs := fun _ => Option.none
  importDest := fun _ => Option.none
  importSrc := fun _ => Option.none
  deleteRecs := fun _ => Option.some 1
  forms := ["f1"]
  all_forms := ["f1", "f2"]
  events := Option.none

/-- C3 counterexample: the validated scope `[f1]` is a strict subset of
the project's forms `[f1, f2]` and no events filter is set, yet
`move_records` calls `delete_records` (the subset test compares against
`len(all_forms) - 1`, which only matches "strict subset" when an
error-reporting form is configured and excluded from the scope). -/
theorem move_records_subset_counterexample :
    (∀ f ∈ ctxSubset.forms, f ∈ ctxSubset.all_forms)
    ∧ ctxSubset.forms ≠ ctxSubset.all_forms
    ∧ truthyEvents ctxSubset.events = false
    ∧ move_records ctxSubset ["1"] = MoveOutcome.deleted (Option.some 1) := by
  refine ⟨by decide, by decide, rfl, rfl⟩

/-- C3 (amended): deletion of the batch's valid records is skipped, and
`delete_records` not called, exactly when the number of selected forms is
smaller than the number of project forms minus one or a non-empty events
filter is in effect; the decision is a precondition independent of the
record identifiers, not a per-record choice.  (With an error-reporting
form configured the count test coincides with "strict subset of the
transferable forms"; without one, a scope missing exactly one form still
proceeds to delete.) -/
theorem move_records_amended (ctx : TCtx) (ids ids2 : List String) :
    (move_records ctx ids = MoveOutcome.skippedSubset ↔
      (ctx.forms.length < ctx.all_forms.length - 1 ∨ truthyEvents ctx.events = true))
    ∧ (move_records ctx ids = MoveOutcome.skippedSubset ↔
        move_records ctx ids2 = MoveOutcome.skippedSubset) := by
  unfold move_records
  constructor
  · split <;> simp_all
  · constructor <;> intro h <;> revert h <;> split <;> simp_all

/-- Matching of every aspect compared by `compare_project_settings`, as a
conjunction of hypotheses on the two projects' settings. -/
def settingsMatch (s d : ProjSettings) : Prop :=
  falsyOpt s.dataDict = false ∧ falsyOpt d.dataDict = false ∧ s.dataDict = d.dataDict
  ∧ s.longitudinal = d.longitudinal
  ∧ (s.longitudinal = true →
      s.arms = d.arms ∧ s.events = d.events ∧ s.formEventMap = d.formEventMap)
  ∧ s.repeating = d.repeating
  ∧ (s.repeating = true → s.repeatIns = d.repeatIns)

/-- C8: the compatibility check compares data dictionaries, the
longitudinal flag, (only when both longitudinal) arms, events and
form-event mappings, the repeating flag, and (only when both repeating)
repeating definitions, in that order; it returns false at the first
mismatch with exactly the aspects up to that mismatch compared, including
the empty-dictionary and one-sided-flag cases, and returns true when
every compared aspect matches. -/
theorem compare_project_settings_spec (s d : ProjSettings) :
    ((falsyOpt s.dataDict = true ∨ falsyOpt d.dataDict = true ∨ s.dataDict ≠ d.dataDict) →
      compare_project_settings s d = (false, [Aspect.dataDict]))
    ∧ (falsyOpt s.dataDict = false → falsyOpt d.dataDict = false → s.dataDict = d.dataDict →
        s.longitudinal ≠ d.longitudinal →
        compare_project_settings s d = (false, [Aspect.dataDict, Aspect.longFlag]))
    ∧ (falsyOpt s.dataDict = false → falsyOpt d.dataDict = false → s.dataDict = d.dataDict →
        s.longitudinal = true → d.longitudinal = true → s.arms ≠ d.arms →
        compare_project_settings s d =
          (false, [Aspect.dataDict, Aspect.longFlag, Aspect.arms]))
    ∧ (falsyOpt s.dataDict = false → falsyOpt d.dataDict = false → s.dataDict = d.dataDict →
        s.longitudinal = true → d.longitudinal = true → s.arms = d.arms →
        s.events ≠ d.events →
        compare_project_settings s d =
          (false, [Aspect.dataDict, Aspect.longFlag, Aspect.arms, Aspect.events]))
    ∧ (falsyOpt s.dataDict = false → falsyOpt d.dataDict = false → s.dataDict = d.dataDict →
        s.longitudinal = true → d.longitudinal = true → s.arms = d.arms →
        s.events = d.events → s.formEventMap ≠ d.formEventMap →
        compare_project_settings s d =
          (false,
            [Aspect.dataDict, Aspect.longFlag, Aspect.arms, Aspect.events, Aspect.mappings]))
    ∧ (falsyOpt s.dataDict = false → falsyOpt d.dataDict = false → s.dataDict = d.dataDict →
        s.longitudinal = true → d.longitudinal = true → s.arms = d.arms →
        s.events = d.events → s.formEventMap = d.formEventMap →
        s.repeating ≠ d.repeating →
        compare_project_settings s d =
          (false,
            [Aspect.dataDict, Aspect.longFlag, Aspect.arms, Aspect.events, Aspect.mappings,
              Aspect.rptFlag]))
    ∧ (falsyOpt s.dataDict = false → falsyOpt d.dataDict = false → s.dataDict = d.dataDict →
        s.longitudinal = true → d.longitudinal = true → s.arms = d.arms →
        s.events = d.events → s.formEventMap = d.formEventMap →
        s.repeating = true → d.repeating = true → s.repeatIns ≠ d.repeatIns →
        compare_project_settings s d =
          (false,
            [Aspect.dataDict, Aspect.longFlag, Aspect.arms, Aspect.events, Aspect.mappings,
              Aspect.rptFlag, Aspect.rptDefs]))
    ∧ (falsyOpt s.dataDict = false → falsyOpt d.dataDict = false → s.dataDict = d.dataDict →
        s.longitudinal = false → d.longitudinal = false → s.repeating ≠ d.repeating →
        compare_project_settings s d =
          (false, [Aspect.dataDict, Aspect.longFlag, Aspect.rptFlag]))
    ∧ (falsyOpt s.dataDict = false → falsyOpt d.dataDict = false → s.dataDict = d.dataDict →
        s.longitudinal = false → d.longitudinal = false →
        s.repeating = true → d.repeating = true → s.repeatIns ≠ d.repeatIns →
        compare_project_settings s d =
          (false, [Aspect.dataDict, Aspect.longFlag, Aspect.rptFlag, Aspect.rptDefs]))
    ∧ (settingsMatch s d → (compare_project_settings s d).1 = true) := by
  unfold compare_project_settings compareRepeating settingsMatch
  refine ⟨?_, ?_, ?_, ?_, ?_, ?_, ?_, ?_, ?_, ?_⟩
  · intro h
    rcases h with h | h | h <;> simp [h]
  · intro h1 h2 h3 h4
    cases hs : s.longitudinal <;> cases hd : d.longitudinal <;> simp_all
  · intro h1 h2 h3 h4 h5 h6
    simp_all
  · intro h1 h2 h3 h4 h5 h6 h7
    simp_all
  · intro h1 h2 h3 h4 h5 h6 h7 h8
    simp_all
  · intro h1 h2 h3 h4 h5 h6 h7 h8 h9
    cases hs : s.repeating <;> cases hd : d.repeating <;> simp_all
  · intro h1 h2 h3 h4 h5 h6 h7 h8 h9 h10 h11
    simp_all
  · intro h1 h2 h3 h4 h5 h6
    cases hs : s.repeating <;> cases hd : d.repeating <;> simp_all
  · intro h1 h2 h3 h4 h5 h6 h7 h8
    simp_all
  · rintro ⟨h1, h2, h3, h4, h5, h6, h7⟩
    cases hl : s.longitudinal <;> cases hr : s.repeating <;>
      simp_all

theorem compare_project_settings_spec_witness :
    (compare_project_settings
        ⟨Option.some "dd", true, Option.some "a", Option.some "e", Option.some "m",
          false, Option.none⟩
        ⟨Option.some "dd", true, Option.some "a", Option.some "e", Option.some "m",
          false, Option.none⟩).1 = true := by
  exact (compare_project_settings_spec _ _).2.2.2.2.2.2.2.2.2
    ⟨rfl, rfl, rfl, rfl, fun _ => ⟨rfl, rfl, rfl⟩, rfl, fun h => by cases h⟩

theorem insertId_nodup (s : List String) (x : String) (h : s.Nodup) :
    (insertId s x).Nodup := by
  unfold insertId
  split
  · exact h
  · next hx =>
    simp [List.nodup_append, h, hx]

theorem mem_insertId (s : List String) (x y : String) (h : y ∈ insertId s x) :
    y ∈ s ∨ y = x := by
  revert h
  unfold insertId
  split
  · exact fun h => Or.inl h
  · intro h
    rcases List.mem_append.mp h with h | h
    · exact Or.inl h
    · simp at h
      exact Or.inr h

theorem validate_data_aux_nodup (ctx : VCtx) :
    ∀ (rs : List RawRecord) (acc : List String × List RawRecord × List RawRecord),
      acc.1.Nodup → (validate_data_aux ctx rs acc).1.Nodup := by
  intro rs
  induction rs with
  | nil => intro acc h; simpa [validate_data_aux] using h
  | cons r rest ih =>
    intro acc h
    rw [validate_data_aux]
    split
    · exact ih _ (insertId_nodup _ _ h)
    · exact ih _ h

theorem validate_data_aux_mem (ctx : VCtx) :
    ∀ (rs : List RawRecord) (acc : List String × List RawRecord × List RawRecord)
      (x : String), x ∈ (validate_data_aux ctx rs acc).1 →
      x ∈ acc.1 ∨ ∃ r, r ∈ rs ∧ recId ctx r = x ∧ (ctx.check r).1 = true := by
  intro rs
  induction rs with
  | nil => intro acc x h; exact Or.inl (by simpa [validate_data_aux] using h)
  | cons r rest ih =>
    intro acc x h
    rw [validate_data_aux] at h
    revert h
    split
    · next hc =>
      intro h
      rcases ih _ x h with h2 | ⟨r2, hr2, hrec, hchk⟩
      · rcases mem_insertId _ _ _ h2 with h3 | h3
        · exact Or.inl h3
        · exact Or.inr ⟨r, List.mem_cons_self r rest, h3.symm, hc⟩
      · exact Or.inr ⟨r2, List.mem_cons_of_mem r hr2, hrec, hchk⟩
    · intro h
      rcases ih _ x h with h2 | ⟨r2, hr2, hrec, hchk⟩
      · exact Or.inl h2
      · exact Or.inr ⟨r2, List.mem_cons_of_mem r hr2, hrec, hchk⟩

/-- C10: the valid-identifier list returned by `validate_data` holds no
duplicates even when several instances share a primary-key value; every
returned identifier is the primary-key value of some record that passed
validation; and the same identifier can appear both in the valid list and
(through another instance) among the failed records of the same batch. -/
theorem validate_data_ids_spec :
    (∀ (ctx : VCtx) (records : List RawRecord), (validate_data ctx records).1.Nodup)
    ∧ (∀ (ctx : VCtx) (records : List RawRecord) (x : String),
        x ∈ (validate_data ctx records).1 →
        ∃ r, r ∈ records ∧ recId ctx r = x ∧ (ctx.check r).1 = true)
    ∧ (∃ (records : List RawRecord) (x : String),
        x ∈ (validate_data vctxOkFlag records).1
        ∧ ∃ fr, fr ∈ (validate_data vctxOkFlag records).2.2
            ∧ recId vctxOkFlag fr = x) := by
  refine ⟨?_, ?_, ?_⟩
  · intro ctx records
    exact validate_data_aux_nodup ctx records ([], [], []) (by simp)
  · intro ctx records x h
    rcases validate_data_aux_mem ctx records ([], [], []) x h with h2 | h2
    · simp at h2
    · exact h2
  · refine ⟨[[("pid", "7"), ("ok", "1")], [("pid", "7"), ("ok", "0")]], "7", ?_, ?_⟩
    · decide
    · exact ⟨[("pid", "7"), ("ok", "0")], by decide, by rfl⟩

theorem validate_data_ids_spec_witness :
    ∃ r, r ∈ [[("pid", "7"), ("ok", "1")]] ∧ recId vctxOkFlag r = "7"
      ∧ (vctxOkFlag.check r).1 = true :=
  validate_data_ids_spec.2.1 vctxOkFlag [[("pid", "7"), ("ok", "1")]] "7" (by decide)

theorem ceilDiv_succ (bs n : Nat) (hbs : 0 < bs) :
    ceilDiv (n + 1) bs = ceilDiv (n + 1 - bs) bs + 1 := by
  rcases le_or_lt (n + 1) bs with h | h
  · have e0 : n + 1 - bs = 0 := by omega
    rw [e0]
    unfold ceilDiv
    have h1 : (0 + bs - 1) / bs = 0 := Nat.div_eq_of_lt (by omega)
    have h2 : (n + 1 + bs - 1) / bs = 1 := by
      have e1 : n + 1 + bs - 1 = n + bs := by omega
      rw [e1]
      exact Nat.div_eq_of_lt_le (by omega) (by omega)
    rw [h1, h2]
  · unfold ceilDiv
    have e1 : n + 1 + bs - 1 = (n + 1 - bs + bs - 1) + bs := by omega
    rw [e1, Nat.add_div_right _ hbs]

theorem join_slices (bs : Nat) (hbs : 0 < bs) (ids : List String) :
    ((List.range (ceilDiv ids.length bs)).map
      (fun i => (ids.drop (i * bs)).take bs)).flatten = ids := by
  cases ids with
  | nil =>
    have h0 : ceilDiv 0 bs = 0 := Nat.div_eq_of_lt (by omega)
    simp [h0]
  | cons a tl =>
    have hcount : ceilDiv (a :: tl).length bs = ceilDiv (tl.length + 1 - bs) bs + 1 := by
      have : (a :: tl).length = tl.length + 1 := rfl
      rw [this, ceilDiv_succ bs tl.length hbs]
    have hrest : ((a :: tl).drop bs).length = tl.length + 1 - bs := by
      simp [List.length_drop]
    have hrec := join_slices bs hbs ((a :: tl).drop bs)
    rw [hrest] at hrec
    have hmaps :
        (List.range (ceilDiv (tl.length + 1 - bs) bs)).map
            ((fun i => ((a :: tl).drop (i * bs)).take bs) ∘ Nat.succ) =
          (List.range (ceilDiv (tl.length + 1 - bs) bs)).map
            (fun i => (((a :: tl).drop bs).drop (i * bs)).take bs) := by
      apply List.map_congr_left
      intro i _
      simp only [Function.comp_apply, Nat.succ_mul, List.drop_drop]
      rw [Nat.add_comm bs (i * bs)]
    rw [hcount, List.range_succ_eq_map, List.map_cons, List.flatten_cons, Nat.zero_mul,
      List.drop_zero, List.map_map, hmaps, hrec, List.take_append_drop]
termination_by ids.length
decreasing_by
  simp [List.length_drop]
  omega

theorem batchSlice_eq (ids : List String) (bv : Int) (i : Nat) :
    batchSlice ids bv i =
      (ids.drop (i * batchSizeN ids.length bv)).take (batchSizeN ids.length bv) := by
  unfold batchSlice
  dsimp only
  set bs := batchSizeN ids.length bv with hbs
  rcases le_or_lt ((i + 1) * bs) ids.length with h | h
  · rw [min_eq_left h]
    congr 1
    have hsm : (i + 1) * bs = i * bs + bs := Nat.succ_mul i bs
    omega
  · rw [min_eq_right (le_of_lt h)]
    have hdl : (ids.drop (i * bs)).length = ids.length - i * bs := List.length_drop _ _
    have hsm : (i + 1) * bs = i * bs + bs := Nat.succ_mul i bs
    rw [List.take_of_length_le (by omega), List.take_of_length_le (by omega)]

theorem batchSlice_len_le (ids : List String) (bv : Int) (i : Nat) :
    (batchSlice ids bv i).length ≤ batchSizeN ids.length bv := by
  rw [batchSlice_eq]
  calc ((ids.drop (i * batchSizeN ids.length bv)).take (batchSizeN ids.length bv)).length
      ≤ batchSizeN ids.length bv := by
        rw [List.length_take]
        exact min_le_left _ _

/-- C2: with a positive batch size `b` the transfer loop issues exactly
`ceil(N / b)` batches of contiguous identifier slices, each of at most
`b` identifiers, which concatenate back to the full identifier list
(covering all `N` identifiers exactly once with no overlap); a non-positive
batch size yields exactly one batch containing everything; and in the
single-batch case no per-batch identifier filter is passed to the export
call. -/
theorem transfer_batch_partition (ctx : TCtx) (bv : Int) (mv : Bool)
    (hN : 0 < ctx.record_ids.length) :
    ((transfer_data ctx bv mv).length = batchCount ctx.record_ids.length bv)
    ∧ (0 < bv →
        batchCount ctx.record_ids.length bv = ceilDiv ctx.record_ids.length bv.toNat
        ∧ (∀ i, (batchSlice ctx.record_ids bv i).length ≤ bv.toNat)
        ∧ ((List.range (batchCount ctx.record_ids.length bv)).map
            (fun i => batchSlice ctx.record_ids bv i)).flatten = ctx.record_ids)
    ∧ (bv ≤ 0 →
        batchCount ctx.record_ids.length bv = 1
        ∧ batchSlice ctx.record_ids bv 0 = ctx.record_ids)
    ∧ (batchCount ctx.record_ids.length bv = 1 →
        transfer_data ctx bv mv = [processBatch ctx mv Option.none]) := by
  refine ⟨?_, ?_, ?_, ?_⟩
  · unfold transfer_data
    simp
  · intro hb
    have hbn : 0 < bv.toNat := by omega
    have hsz : batchSizeN ctx.record_ids.length bv = bv.toNat := by
      simp [batchSizeN, hb]
    refine ⟨by simp [batchCount, hb], ?_, ?_⟩
    · intro i
      have := batchSlice_len_le ctx.record_ids bv i
      rwa [hsz] at this
    · have hc : batchCount ctx.record_ids.length bv = ceilDiv ctx.record_ids.length bv.toNat := by
        simp [batchCount, hb]
      have hmap :
          (List.range (batchCount ctx.record_ids.length bv)).map
              (fun i => batchSlice ctx.record_ids bv i) =
            (List.range (ceilDiv ctx.record_ids.length bv.toNat)).map
              (fun i => (ctx.record_ids.drop (i * bv.toNat)).take bv.toNat) := by
        rw [hc]
        apply List.map_congr_left
        intro i _
        rw [batchSlice_eq, hsz]
      rw [hmap]
      exact join_slices bv.toNat hbn ctx.record_ids
  · intro hb
    have hnb : ¬ 0 < bv := by omega
    have hc : batchCount ctx.record_ids.length bv = 1 := by
      simp [batchCount, hnb]
    refine ⟨hc, ?_⟩
    have hsz : batchSizeN ctx.record_ids.length bv = ctx.record_ids.length := by
      simp [batchSizeN, hnb]
    rw [batchSlice_eq, hsz]
    simp
  · intro hc
    unfold transfer_data
    rw [hc]
    simp [batchFilter, hc]

theorem transfer_batch_partition_witness :
    (transfer_data ctxSubset 2 true).length = 1
    ∧ batchSlice ctxSubset.record_ids 2 0 = ["1"] := by
  have h := transfer_batch_partition ctxSubset 2 true (by decide)
  constructor
  · rw [h.1]
    decide
  · have hj := (h.2.1 (by norm_num)).2.2
    simpa using hj

theorem truthyCount_eq_true (o : Option Nat) (h : truthyCount o = true) :
    ∃ n, o = Option.some n ∧ 0 < n := by
  cases o with
  | none => simp [truthyCount] at h
  | some n =>
    refine ⟨n, rfl, ?_⟩
    simp [truthyCount] at h
    omega

theorem processBatch_gating (ctx : TCtx) (mv : Bool) (f : Option (List String)) :
    (∀ recs res, Action.imported recs res ∈ processBatch ctx mv f →
        truthyCount res = false →
        (∀ ids r, Action.deleted ids r ∉ processBatch ctx mv f)
        ∧ (∀ frs r, Action.wroteBack frs r ∉ processBatch ctx mv f))
    ∧ (∀ ids r, Action.deleted ids r ∈ processBatch ctx mv f →
        ∃ recs n, Action.imported recs (Option.some n) ∈ processBatch ctx mv f ∧ 0 < n) := by
  unfold processBatch
  cases hexp : ctx.exportRecs f with
  | none =>
    constructor
    · intro recs res hmem
      simp at hmem
    · intro ids r hmem
      simp at hmem
  | some records =>
    dsimp only
    by_cases hv : (validate_data ctx.vctx records).2.1.length > 0
    · rw [if_pos hv]
      by_cases himp :
          truthyCount (ctx.importDest (validate_data ctx.vctx records).2.1) = true
      · rw [if_pos himp]
        obtain ⟨n, hn, hnpos⟩ := truthyCount_eq_true _ himp
        unfold writeBackActs
        cases mv with
        | false =>
          by_cases hf : (validate_data ctx.vctx records).2.2.length ≠ 0 <;>
            [rw [if_pos hf]; rw [if_neg hf]] <;>
            (constructor
             · intro recs res hmem htr
               simp at hmem
               rw [hmem.2] at htr
               rw [htr] at himp
               cases himp
             · intro ids r hmem
               refine ⟨(validate_data ctx.vctx records).2.1, n, ?_, hnpos⟩
               rw [← hn]
               simp)
        | true =>
          cases hmv : move_records ctx (validate_data ctx.vctx records).1 <;>
            dsimp only <;>
            by_cases hf : (validate_data ctx.vctx records).2.2.length ≠ 0 <;>
            first
              | rw [if_pos hf]
              | rw [if_neg hf]
          all_goals
            constructor
            · intro recs res hmem htr
              simp at hmem
              rw [hmem.2] at htr
              rw [htr] at himp
              cases himp
            · intro ids r hmem
              refine ⟨(validate_data ctx.vctx records).2.1, n, ?_, hnpos⟩
              rw [← hn]
              simp
      · rw [if_neg himp]
        constructor
        · intro recs res hmem htr
          constructor
          · intro ids r hd
            simp at hd
          · intro frs r hw
            simp at hw
        · intro ids r hmem
          simp at hmem
    · rw [if_neg hv]
      unfold writeBackActs
      by_cases hf : (validate_data ctx.vctx records).2.2.length ≠ 0 <;>
        [rw [if_pos hf]; rw [if_neg hf]] <;>
        (constructor
         · intro recs res hmem
           simp at hmem
         · intro ids r hmem
           simp at hmem)

/-- C1: in every batch trace of a transfer run, if the destination import
is recorded with an absent or unconfirmed result (no truthy imported
count), then no deletion and no failed-record write-back occur in that
batch — the source is left untouched — while the run still consists of
one trace per planned batch (processing advances to the next batch); and
conversely any deletion in a batch trace is preceded by an import that
reported a concrete positive count. -/
theorem import_gates_delete (ctx : TCtx) (bv : Int) (mv : Bool) (t : List Action)
    (ht : t ∈ transfer_data ctx bv mv) :
    ((transfer_data ctx bv mv).length = batchCount ctx.record_ids.length bv)
    ∧ (∀ recs res, Action.imported recs res ∈ t → truthyCount res = false →
        (∀ ids r, Action.deleted ids r ∉ t) ∧ (∀ frs r, Action.wroteBack frs r ∉ t))
    ∧ (∀ ids r, Action.deleted ids r ∈ t →
        ∃ recs n, Action.imported recs (Option.some n) ∈ t ∧ 0 < n) := by
  obtain ⟨i, hi, hpf⟩ := List.mem_map.mp ht
  subst hpf
  exact ⟨by simp [transfer_data], (processBatch_gating ctx mv _).1,
    (processBatch_gating ctx mv _).2⟩

/-- Concrete transfer environment whose destination import returns the
falsy `False`: one record, one batch, a record that passes validation. -/
def ctxImportAbsent : TCtx where
  vctx := vctxOkFlag
  record_ids := ["7"]
  exportRecs := fun _ => Option.some [[("pid", "7"), ("ok", "1")]]
  importDest := fun _ => Option.none
  importSrc := fun _ => Option.some 1
  deleteRecs := fun _ => Option.some 1
  forms := ["f1"]
  all_forms := ["f1"]
  events := Option.none

/-- The single batch trace of `ctxImportAbsent`. -/
def traceImportAbsent : List Action := processBatch ctxImportAbsent true Option.none

theorem import_gates_delete_witness :
    Action.imported [[("pid", "7"), ("ok", "1")]] Option.none ∈ traceImportAbsent
    ∧ Action.deleted ["7"] (Option.some 1) ∉ traceImportAbsent := by
  have hm : traceImportAbsent ∈ transfer_data ctxImportAbsent 1 true := by decide
  have h := import_gates_delete ctxImportAbsent 1 true traceImportAbsent hm
  exact ⟨by decide,
    (h.2.1 [[("pid", "7"), ("ok", "1")]] Option.none (by decide) (by decide)).1
      ["7"] (Option.some 1)⟩

end RedcapTransfer
